import Mathlib

/-!
Shallow embedding of the tsdbclient repository (a TDengine/InfluxDB-style
HTTP client written in Go) and verification of its specification claims.

Embedded parts:
  * the escape/unescape helpers built on strings.NewReplacer;
  * BatchPoints with the Go time.ParseDuration based precision validation;
  * the HTTP write body serialization loop of client.Write;
  * the decode phase of client.Query (EOF tolerance on non-200 status);
  * Response.Error and the row projection of tsdbClient.QueryData,
    including the time.Parse based timestamp coercion;
  * the subscription bridge loop of tsdbClient.subscribe.

Go runtime panics (failed type assertions, index out of range) are modelled
as an explicit outcome constructor distinct from returned errors.
-/

/-- A decoded JSON value as produced by encoding/json with UseNumber:
numbers are carried as their literal text (json.Number). -/
inductive JVal where
  | str (s : String)
  | num (s : String)
  | jbool (b : Bool)
  | jnull
  | jarr (l : List JVal)
  | jobj (l : List (String × JVal))

/-! ## Escaper (src/unnamed/part_001) -/

/-- The reserved characters of the line-protocol escaper:
comma, double quote, space, equals. -/
def reservedChar (c : Char) : Bool :=
  c = ',' || c = '"' || c = ' ' || c = '='

/-- strings.NewReplacer with the four single-character patterns of
`escaper`: each reserved character is replaced by a backslash followed by
the character, every other character passes through. -/
def escapeList : List Char → List Char
  | [] => []
  | c :: rest => if reservedChar c then '\\' :: c :: escapeList rest else c :: escapeList rest

/-- strings.NewReplacer with the four two-character patterns of
`unescaper`: a backslash followed by a reserved character becomes the
character; after a non-match the scan advances one character. -/
def unescapeList : List Char → List Char
  | [] => []
  | a :: rest =>
    if a = '\\' then
      match rest with
      | [] => ['\\']
      | c :: rest2 =>
        if reservedChar c then c :: unescapeList rest2 else '\\' :: unescapeList (c :: rest2)
    else a :: unescapeList rest

/-- String0 returns the escaped version of the input (escaper.Replace). -/
def String0 (s : String) : String := String.mk (escapeList s.data)

/-- UnescapeString returns the unescaped version of the input; when the
input holds no backslash (strings.IndexByte check) it is returned
unchanged. -/
def UnescapeString (s : String) : String :=
  if s.data.contains '\\' then String.mk (unescapeList s.data) else s

/-! ## Go time.ParseDuration (used by NewBatchPoints / SetPrecision) -/

def isDigitCh (c : Char) : Bool := '0' ≤ c && c ≤ '9'

def digitVal (c : Char) : Nat := c.toNat - 48

/-- Go time.leadingInt: consume leading decimal digits into a uint64 with
the overflow checks of the source (`x > 1<<63/10` before the multiply,
`x > 1<<63` after); `none` is the errLeadingInt overflow error. -/
def leadingIntAux (x : Nat) : List Char → Option (Nat × List Char)
  | [] => some (x, [])
  | c :: rest =>
    if isDigitCh c then
      if x > 2 ^ 63 / 10 then none
      else
        let y := x * 10 + digitVal c
        if y > 2 ^ 63 then none
        else leadingIntAux y rest
    else some (x, c :: rest)

/-- Go time.leadingFraction: consume digits after the decimal point,
tracking a power-of-ten scale and silently saturating on overflow.
Returns (digits value, scale, remainder). -/
def leadingFractionAux (x scale : Nat) (overflow : Bool) :
    List Char → Nat × Nat × List Char
  | [] => (x, scale, [])
  | c :: rest =>
    if isDigitCh c then
      if overflow then leadingFractionAux x scale true rest
      else if x > (2 ^ 63 - 1) / 10 then leadingFractionAux x scale true rest
      else
        let y := x * 10 + digitVal c
        if y > 2 ^ 63 then leadingFractionAux x scale true rest
        else leadingFractionAux y (scale * 10) false rest
    else (x, scale, c :: rest)

/-- Go time.unitMap: nanoseconds per unit token. The micro-sign and Greek
mu spellings of microseconds are written via their code points. -/
def unitVal (u : List Char) : Option Nat :=
  if u = ['n', 's'] then some 1
  else if u = ['u', 's'] then some 1000
  else if u = [Char.ofNat 181, 's'] then some 1000
  else if u = [Char.ofNat 956, 's'] then some 1000
  else if u = ['m', 's'] then some 1000000
  else if u = ['s'] then some 1000000000
  else if u = ['m'] then some 60000000000
  else if u = ['h'] then some 3600000000000
  else none

/-- One pass of the segment loop of Go time.ParseDuration, accumulating
nanoseconds in d. The fractional contribution is computed as
f * unit / scale in exact integer arithmetic where the source uses
float64; the accepted language is identical except at float
representation boundaries near 2^63. Fuel bounds recursion; callers pass
the input length plus one, which every segment (consuming at least one
character) respects. -/
def parseDurationLoop : Nat → Nat → List Char → Except String Nat
  | 0, _, _ => .error "time: invalid duration"
  | _ + 1, d, [] => .ok d
  | fuel + 1, d, c :: cs =>
    if !(c = '.' || isDigitCh c) then .error "time: invalid duration"
    else
      match leadingIntAux 0 (c :: cs) with
      | none => .error "time: invalid duration"
      | some (v, s1) =>
        let pre := s1.length ≠ (c :: cs).length
        let fps : Nat × Nat × List Char × Bool :=
          match s1 with
          | '.' :: rest =>
            let r := leadingFractionAux 0 1 false rest
            (r.1, r.2.1, r.2.2, r.2.2.length ≠ rest.length)
          | _ => (0, 1, s1, false)
        let f := fps.1
        let scale := fps.2.1
        let s2 := fps.2.2.1
        let post := fps.2.2.2
        if ¬pre ∧ ¬post then .error "time: invalid duration"
        else
          let uChars := s2.takeWhile (fun ch => !(ch = '.' || isDigitCh ch))
          let s3 := s2.drop uChars.length
          if uChars.length = 0 then .error "time: missing unit in duration"
          else
            match unitVal uChars with
            | none => .error "time: unknown unit in duration"
            | some unit =>
              if v > 2 ^ 63 / unit then .error "time: invalid duration"
              else
                let v1 := v * unit
                let v2 := if f > 0 then v1 + f * unit / scale else v1
                if f > 0 ∧ v2 > 2 ^ 63 then .error "time: invalid duration"
                else
                  let d1 := d + v2
                  if d1 > 2 ^ 63 then .error "time: invalid duration"
                  else parseDurationLoop fuel d1 s3

/-- Go time.ParseDuration: optional sign, the special case "0", then one
or more number-fraction-unit segments; the result is nanoseconds. -/
def parseDuration (str : String) : Except String Int :=
  let s0 := str.data
  let signed : Bool × List Char :=
    match s0 with
    | '-' :: rest => (true, rest)
    | '+' :: rest => (false, rest)
    | _ => (false, s0)
  let neg := signed.1
  let s := signed.2
  if s = ['0'] then .ok 0
  else if s = [] then .error "time: invalid duration"
  else
    match parseDurationLoop (s.length + 1) 0 s with
    | .error e => .error e
    | .ok d =>
      if neg then .ok (-(d : Int))
      else if d > 2 ^ 63 - 1 then .error "time: invalid duration"
      else .ok (d : Int)

/-- A precision string is accepted exactly when "1" prefixed to it parses
as a Go duration (the check both NewBatchPoints and SetPrecision run). -/
def acceptedPrecision (u : String) : Bool :=
  match parseDuration ("1" ++ u) with
  | .ok _ => true
  | .error _ => false

/-! ## BatchPoints (src/taosclient.go) -/

/-- A data point; its line-protocol serialization (Point.PrecisionString,
implemented outside this repository) is carried as a function of the
precision unit. -/
structure DataPoint where
  lineProtocol : String → String

structure BatchPointsConfig where
  precision : String
  database : String

structure Batchpoints where
  points : List (Option DataPoint)
  database : String
  precision : String
  retentionPolicy : String
  writeConsistency : String

/-- NewBatchPoints: an empty precision defaults to "ms"; the (defaulted)
precision must parse as a Go duration when prefixed with "1". -/
def NewBatchPoints (conf : BatchPointsConfig) : Except String Batchpoints :=
  let p := if conf.precision = "" then "ms" else conf.precision
  match parseDuration ("1" ++ p) with
  | .error e => .error e
  | .ok _ => .ok (Batchpoints.mk [] conf.database p "" "")

/-- batchpoints.SetPrecision: validate "1"+p as a duration; on failure
return the error with the receiver unchanged, on success update the
precision. The pair is (returned error, post-call state). -/
def setPrecision (bp : Batchpoints) (p : String) : Option String × Batchpoints :=
  match parseDuration ("1" ++ p) with
  | .error e => (some e, bp)
  | .ok _ => (none, Batchpoints.mk bp.points bp.database p bp.retentionPolicy bp.writeConsistency)

/-! ## Go time.Parse with the fixed layout of tsdbTimeStampFormat
("2006-01-02T15:04:05.999999999Z"; the trailing Z is a literal in this
layout, so the parsed time is UTC) and time.Time.Unix. -/

/-- getnum with fixed width two: exactly two digits. -/
def getnum2 : List Char → Option (Nat × List Char)
  | a :: b :: rest =>
    if isDigitCh a && isDigitCh b then some (digitVal a * 10 + digitVal b, rest) else none
  | _ => none

/-- getnum without fixed width (layout "15" for the hour): two digits when
two are present, otherwise one. -/
def getnum12 : List Char → Option (Nat × List Char)
  | a :: b :: rest =>
    if isDigitCh a then
      if isDigitCh b then some (digitVal a * 10 + digitVal b, rest)
      else some (digitVal a, b :: rest)
    else none
  | [a] => if isDigitCh a then some (digitVal a, []) else none
  | [] => none

/-- Layout "2006": exactly four digits. -/
def getnum4 : List Char → Option (Nat × List Char)
  | a :: b :: c :: d :: rest =>
    if isDigitCh a && isDigitCh b && isDigitCh c && isDigitCh d then
      some (digitVal a * 1000 + digitVal b * 100 + digitVal c * 10 + digitVal d, rest)
    else none
  | _ => none

def expectCh (c : Char) : List Char → Option (List Char)
  | a :: rest => if a = c then some rest else none
  | [] => none

/-- The optional fractional second of layout element ".999999999": present
only when a period (or comma) is directly followed by a digit, in which
case all following digits are consumed. The digits are irrelevant to
Unix seconds. -/
def skipFraction : List Char → List Char
  | s@(p :: d :: _) =>
    if (p = '.' || p = ',') && isDigitCh d then
      match s with
      | _ :: rest => rest.dropWhile isDigitCh
      | [] => []
    else s
  | s => s

def isLeapYear (y : Nat) : Bool :=
  y % 4 = 0 && (y % 100 ≠ 0 || y % 400 = 0)

/-- Days in a month (Go daysIn), with February depending on leap years. -/
def daysInMonth (m y : Nat) : Nat :=
  if m = 2 then (if isLeapYear y then 29 else 28)
  else if m = 4 || m = 6 || m = 9 || m = 11 then 30
  else 31

/-- Days between 1970-01-01 and the given proleptic Gregorian civil date
(the arithmetic Go performs internally via its absolute-time encoding). -/
def daysFromCivil (y m d : Int) : Int :=
  let y1 := if m ≤ 2 then y - 1 else y
  let era := Int.fdiv y1 400
  let yoe := y1 - era * 400
  let mp := Int.fmod (m + 9) 12
  let doy := (153 * mp + 2) / 5 + d - 1
  let doe := yoe * 365 + Int.fdiv yoe 4 - Int.fdiv yoe 100 + doy
  era * 146097 + doe - 719468

/-- time.Parse with layout "2006-01-02T15:04:05.999999999Z" followed by
Unix(): four-digit year, fixed two-digit month/day/minute/second,
one-or-two-digit hour, optional fractional second, a literal Z, end of
input; the ranges Go checks (month 1-12, hour below 24, minute and second
below 60, day within the month) and the Unix seconds of the resulting UTC
time. `none` is a parse error (QueryData then emits 0). -/
def parseTsdbTimestamp (str : String) : Option Int := do
  let s0 := str.data
  let (year, s1) ← getnum4 s0
  let s2 ← expectCh '-' s1
  let (month, s3) ← getnum2 s2
  if month < 1 || month > 12 then none else
  let s4 ← expectCh '-' s3
  let (day, s5) ← getnum2 s4
  let s6 ← expectCh 'T' s5
  let (hour, s7) ← getnum12 s6
  if hour ≥ 24 then none else
  let s8 ← expectCh ':' s7
  let (minute, s9) ← getnum2 s8
  if minute ≥ 60 then none else
  let s10 ← expectCh ':' s9
  let (sec, s11) ← getnum2 s10
  if sec ≥ 60 then none else
  let s12 := skipFraction s11
  let s13 ← expectCh 'Z' s12
  if s13 ≠ [] then none else
  if day < 1 || day > daysInMonth month year then none else
  some (daysFromCivil year month day * 86400 + hour * 3600 + minute * 60 + sec)

/-! ## strconv.ParseInt via json.Number.Int64 -/

/-- The int64 returned by strconv.ParseInt(s, 10, 64) with the error
discarded, as json.Number.Int64 is used in QueryData: 0 on a syntax
error, the saturated bound on a range error, the value otherwise. -/
def goParseInt64 (s : String) : Int :=
  match s.data with
  | [] => 0
  | c :: rest =>
    let sd : Bool × List Char :=
      if c = '-' then (true, rest)
      else if c = '+' then (false, rest)
      else (false, c :: rest)
    let neg := sd.1
    let digits := sd.2
    if digits = [] || digits.any (fun d => !isDigitCh d) then 0
    else
      let v := digits.foldl (fun a d => a * 10 + digitVal d) 0
      let un := min v (2 ^ 64 - 1)
      if !neg && un ≥ 2 ^ 63 then (2 ^ 63 - 1 : Int)
      else if neg && un > 2 ^ 63 then -(2 ^ 63 : Int)
      else if neg then -(un : Int) else (un : Int)

/-! ## Response and its Error method (src/taosclient.go) -/

/-- The Response struct decoded from the rest/sql endpoint. -/
structure Response where
  code : Int
  desc : String
  columnMeta : List (List JVal)
  data : List (List JVal)
  rows : Int

/-- The error identity returned by Response.Error: the package-level
sentinel ErrNotExistsTable is a distinct value from any error built with
errors.New(desc). -/
inductive RespError where
  | notExistsTable
  | generic (desc : String)
deriving DecidableEq

/-- Response.Error: nil when the code is zero and the description empty;
the ErrNotExistsTable sentinel when the code is 9826 or 9750; otherwise
errors.New of the description. -/
def Response.Error (r : Response) : Option RespError :=
  if r.code ≠ 0 ∨ r.desc.length > 0 then
    if r.code = 9826 ∨ r.code = 9750 then some .notExistsTable
    else some (.generic r.desc)
  else none

/-! ## tsdbClient.QueryData row projection (src/options.go) -/

/-- A host-side cell value held in the row maps QueryData returns.
float64Of keeps the json.Number literal whose Float64 conversion the code
stores, since the claims never inspect float values. -/
inductive HVal where
  | int64 (i : Int)
  | float64Of (numLit : String)
  | raw (v : JVal)

/-- Go map assignment row[cn] = v on a map modelled as an ordered
association list: replace the value at an existing key, append otherwise. -/
def rowUpsert (row : List (String × HVal)) (k : String) (v : HVal) : List (String × HVal) :=
  if row.any (fun p => p.1 = k) then
    row.map (fun p => if p.1 = k then (k, v) else p)
  else row ++ [(k, v)]

/-- How processing one cell of one row ends when it does not produce a
value: rerr is an error returned by QueryData, rpanic a Go runtime panic
(failed type assertion or index out of range). -/
inductive RowFail where
  | rerr (msg : String)
  | rpanic (msg : String)

def intTypeNames : List String :=
  ["BIGINT", "INT", "TINYINT", "SMALLINT", "TINYINT UNSIGNED",
   "SMALLINT UNSIGNED", "INT UNSIGNED", "BIGINT UNSIGNED"]

def floatTypeNames : List String := ["FLOAT", "DOUBLE"]

/-- The convertNumber switch on the declared column type: integer family
via json.Number.Int64 (caller default on a non-number cell), float family
via json.Number.Float64 (same fallback), TIMESTAMP via time.Parse with
Unix seconds and 0 on parse failure -- panicking when the cell is not a
string -- and pass-through for every other type name. -/
def convCell (dv : HVal) (ct : String) (cell : JVal) : Except RowFail HVal :=
  if ct ∈ intTypeNames then
    match cell with
    | .num n => .ok (.int64 (goParseInt64 n))
    | _ => .ok dv
  else if ct ∈ floatTypeNames then
    match cell with
    | .num n => .ok (.float64Of n)
    | _ => .ok dv
  else if ct = "TIMESTAMP" then
    match cell with
    | .str s =>
      .ok (.int64 (match parseTsdbTimestamp s with | some u => u | none => 0))
    | _ => .error (.rpanic "interface conversion: timestamp cell is not a string")
  else .ok (.raw cell)

/-- The inner column loop of QueryData over one data row r: a metadata
entry that is not a three-element list is the hard error of the source; a
non-string name or (with conversion on) type is a failed type assertion;
the name underscore is skipped; every kept column reads r at the column
index (out of range is a runtime panic). -/
def buildRowAux (dv : HVal) (convert : Bool) (r : List JVal) :
    List (List JVal) → Nat → List (String × HVal) → Except RowFail (List (String × HVal))
  | [], _, row => .ok row
  | c :: ms, i, row =>
    match c with
    | [cv0, cv1, _] =>
      match cv0 with
      | .str cn =>
        if cn = "_" then buildRowAux dv convert r ms (i + 1) row
        else if convert then
          match cv1 with
          | .str ct =>
            match r[i]? with
            | none => .error (.rpanic "index out of range")
            | some cell =>
              match convCell dv ct cell with
              | .ok v => buildRowAux dv convert r ms (i + 1) (rowUpsert row cn v)
              | .error f => .error f
          | _ => .error (.rpanic "interface conversion: column type is not a string")
        else
          match r[i]? with
          | none => .error (.rpanic "index out of range")
          | some cell => buildRowAux dv convert r ms (i + 1) (rowUpsert row cn (.raw cell))
      | _ => .error (.rpanic "interface conversion: column name is not a string")
    | _ => .error (.rerr "column meta data length no equal 3")

/-- How the response-processing part of QueryData ends: a row list, a
returned error, or a Go runtime panic. -/
inductive QDResult where
  | ok (rowsOut : List (List (String × HVal)))
  | error (msg : String)
  | panicked (msg : String)

/-- The outer row loop of QueryData: build each row in order, appending to
the result; on the first failing row return the error (the source returns
an explicit nil result) or propagate the panic. -/
def processRowsAux (dv : HVal) (convert : Bool) (meta : List (List JVal)) :
    List (List JVal) → List (List (String × HVal)) → QDResult
  | [], acc => .ok acc.reverse
  | r :: rs, acc =>
    match buildRowAux dv convert r meta 0 [] with
    | .ok row => processRowsAux dv convert meta rs (row :: acc)
    | .error (.rerr m) => .error m
    | .error (.rpanic m) => .panicked m

/-- The response-processing phase of tsdbClient.QueryData (after the HTTP
query succeeded), with dv the client's configured defaultNumberValue: the
ErrNotExistsTable sentinel becomes an empty result with no error, any
other response error is returned, otherwise the rows are projected. -/
def queryDataProcess (dv : HVal) (convert : Bool) (resp : Response) : QDResult :=
  match resp.Error with
  | some .notExistsTable => .ok []
  | some (.generic d) => .error d
  | none => processRowsAux dv convert resp.columnMeta resp.data []

/-! ## client.Write body serialization (src/taosclient.go) -/

/-- The point loop of client.Write (default content encoding): every nil
point is skipped, every other point contributes its
PrecisionString(batch precision) followed by a newline, in order. -/
def writeBody (pts : List (Option DataPoint)) (precision : String) : String :=
  match pts with
  | [] => ""
  | none :: rest => writeBody rest precision
  | some p :: rest => p.lineProtocol precision ++ "\n" ++ writeBody rest precision

def countNewlines (s : String) : Nat := s.data.count '\n'

/-! ## client.Query decode phase (src/taosclient.go) -/

/-- The error client.Query can return after the transport-level checks:
either the wrapped decode failure or the synthesized non-200 status
error. -/
inductive QueryErr where
  | decodeErr (status : Nat) (msg : String)
  | statusErr (status : Nat)

/-- The zero-valued Response left when the JSON decoder consumed
nothing. -/
def emptyResponse : Response := Response.mk 0 "" [] [] 0

/-- The tail of client.Query after checkResponse: clear a decode error
whose text is exactly EOF when the HTTP status is not 200, return any
remaining decode error wrapped, then synthesize a status error when the
status is not 200 and the decoded payload carries no application error.
The pair mirrors the Go (response pointer, error) return. -/
def queryDecodePhase (status : Nat) (decRes : Except String Response) :
    Option Response × Option QueryErr :=
  let cleared : Except String Response :=
    match decRes with
    | .error e => if e = "EOF" ∧ status ≠ 200 then .ok emptyResponse else .error e
    | .ok resp => .ok resp
  match cleared with
  | .error e => (none, some (.decodeErr status e))
  | .ok response =>
    if status ≠ 200 ∧ response.Error = none then (some response, some (.statusErr status))
    else (some response, none)

/-! ## Subscription bridge loop (tsdbClient.subscribe, src/options.go) -/

/-- What one poll of the consumer yields: a subscribed message, an error,
nothing, or an event of an unexpected type. -/
inductive PollEvent where
  | pmsg (m : Nat)
  | perr (e : String)
  | pnone
  | pother

/-- The environment one loop iteration observes: whether the context is
already cancelled, what Unsubscribe would return if called, what Poll
yields, and whether the destination channel can accept a non-blocking
send. -/
structure IterEnv where
  ctxDone : Bool
  unsubErr : Option String
  poll : PollEvent
  chanFree : Bool

/-- How a run of the bridge loop ends: returned carries the returned
error value, whether the destination channel was closed, whether the
cancellation path called Unsubscribe, and the messages delivered to the
channel in order; running means the modelled iterations ran out with the
loop still alive. -/
inductive SubOutcome where
  | returned (res : Option String) (chanClosed : Bool) (unsubCalled : Bool)
      (delivered : List Nat)
  | running (delivered : List Nat)

def consDelivered (m : Nat) : SubOutcome → SubOutcome
  | .returned r c u ds => .returned r c u (m :: ds)
  | .running ds => .running (m :: ds)

/-- The select loop of tsdbClient.subscribe, one IterEnv per iteration:
on a cancelled context call Unsubscribe -- on its failure return that
error leaving the channel open, on success close the channel and return
nil; otherwise poll once, forwarding a message with a non-blocking send
(dropped when the channel is full), returning a polled error with the
channel left open, and ignoring empty or unexpected events. -/
def subscribeLoop : List IterEnv → SubOutcome
  | [] => .running []
  | env :: rest =>
    if env.ctxDone then
      match env.unsubErr with
      | some e => .returned (some e) false true []
      | none => .returned none true true []
    else
      match env.poll with
      | .pmsg m => if env.chanFree then consDelivered m (subscribeLoop rest)
                   else subscribeLoop rest
      | .perr e => .returned (some e) false false []
      | .pnone => subscribeLoop rest
      | .pother => subscribeLoop rest

theorem unescape_escape_reserved (l : List Char) (h : ∀ c ∈ l, reservedChar c = true) :
    unescapeList (escapeList l) = l := by
  induction l with
  | nil => rfl
  | cons c rest ih =>
    have hc : reservedChar c = true := h c (List.mem_cons_self c rest)
    have hr : ∀ x ∈ rest, reservedChar x = true := fun x hx => h x (List.mem_cons_of_mem _ hx)
    simp only [escapeList, hc, if_true, unescapeList, if_pos rfl]
    exact congrArg (c :: ·) (ih hr)

theorem escape_all_reserved_head (c : Char) (rest : List Char)
    (hc : reservedChar c = true) :
    escapeList (c :: rest) = '\\' :: c :: escapeList rest := by
  simp [escapeList, hc]

/-- C3: for every string composed only of characters from the reserved set,
unescaping the escaped form returns the string exactly:
UnescapeString (String0 s) = s. -/
theorem claim_C3_roundtrip (s : String) (h : ∀ c ∈ s.data, reservedChar c = true) :
    UnescapeString (String0 s) = s := by
  unfold UnescapeString String0
  by_cases hc : (String.mk (escapeList s.data)).data.contains '\\'
  · simp only [hc, if_true]
    have h2 : unescapeList (escapeList s.data) = s.data := unescape_escape_reserved s.data h
    cases s with
    | mk data => exact congrArg String.mk h2
  · simp only [hc, if_false, Bool.false_eq_true]
    cases hd : s.data with
    | nil =>
      cases s with
      | mk data =>
        simp only at hd
        subst hd
        rfl
    | cons c rest =>
      exfalso
      apply hc
      have hcres : reservedChar c = true := h c (by rw [hd]; exact List.mem_cons_self c rest)
      have : escapeList s.data = '\\' :: c :: escapeList rest := by
        rw [hd]; exact escape_all_reserved_head c rest hcres
      simp [this]

theorem claim_C3_witness : UnescapeString (String0 ", =\"") = ", =\"" :=
  claim_C3_roundtrip ", =\"" (by decide)

/-- C6: SetPrecision with a unit the duration validator rejects returns an
error and leaves the precision unchanged; with a unit it accepts it
returns nil and the precision becomes that unit. -/
theorem claim_C6_set_precision (bp : Batchpoints) (u : String) :
    (acceptedPrecision u = false →
      (setPrecision bp u).1.isSome = true ∧ (setPrecision bp u).2.precision = bp.precision)
    ∧ (acceptedPrecision u = true →
      (setPrecision bp u).1 = none ∧ (setPrecision bp u).2.precision = u) := by
  constructor
  · intro hbad
    cases hp : parseDuration ("1" ++ u) with
    | ok v => simp [acceptedPrecision, hp] at hbad
    | error e => simp [setPrecision, hp]
  · intro hok
    cases hp : parseDuration ("1" ++ u) with
    | ok v => simp [setPrecision, hp]
    | error e => simp [acceptedPrecision, hp] at hok

theorem claim_C6_witness :
    ((acceptedPrecision "xyz" = false)
      ∧ (setPrecision (Batchpoints.mk [] "iot" "ms" "" "") "xyz").1.isSome = true
      ∧ (setPrecision (Batchpoints.mk [] "iot" "ms" "" "") "xyz").2.precision = "ms")
    ∧ ((acceptedPrecision "s" = true)
      ∧ (setPrecision (Batchpoints.mk [] "iot" "ms" "" "") "s").1 = none
      ∧ (setPrecision (Batchpoints.mk [] "iot" "ms" "" "") "s").2.precision = "s") := by
  refine ⟨⟨by decide, ?_⟩, ⟨by decide, ?_⟩⟩
  · exact (claim_C6_set_precision (Batchpoints.mk [] "iot" "ms" "" "") "xyz").1 (by decide)
  · exact (claim_C6_set_precision (Batchpoints.mk [] "iot" "ms" "" "") "s").2 (by decide)

/-- C7 counterexample: "h" is outside the set ns, us, ms, s, yet both
NewBatchPoints and SetPrecision accept it, because the code validates the
unit with Go time.ParseDuration, which also knows m, h, the two
micro-sign spellings and compound durations. -/
theorem claim_C7_counterexample :
    (∃ bp, NewBatchPoints (BatchPointsConfig.mk "h" "iot") = .ok bp)
    ∧ (setPrecision (Batchpoints.mk [] "iot" "ms" "" "") "h").1 = none
    ∧ ("h" ∈ (["ns", "us", "ms", "s"] : List String)) = False := by
  refine ⟨⟨Batchpoints.mk [] "iot" "h" "" "", rfl⟩, by decide, by simp⟩

/-- C7 amended: NewBatchPoints and SetPrecision accept a precision unit u
exactly when "1" concatenated with u parses as a Go duration (an empty
precision at construction defaults to "ms"); this accepted set contains
ns, us, ms and s but is strictly larger (it also contains, for instance,
"h"); every string whose "1"-prefixed form fails to parse is rejected
with an error. -/
theorem claim_C7_amended (conf : BatchPointsConfig) (bp : Batchpoints) (u : String) :
    ((∃ bp2, NewBatchPoints conf = .ok bp2)
      ↔ acceptedPrecision (if conf.precision = "" then "ms" else conf.precision) = true)
    ∧ (conf.precision = "" → ∀ bp2, NewBatchPoints conf = .ok bp2 → bp2.precision = "ms")
    ∧ ((setPrecision bp u).1 = none ↔ acceptedPrecision u = true)
    ∧ acceptedPrecision "ns" = true ∧ acceptedPrecision "us" = true
    ∧ acceptedPrecision "ms" = true ∧ acceptedPrecision "s" = true
    ∧ acceptedPrecision "h" = true := by
  refine ⟨?_, ?_, ?_, by decide, by decide, by decide, by decide, by decide⟩
  · cases hp : parseDuration ("1" ++ if conf.precision = "" then "ms" else conf.precision) with
    | ok v => simp [NewBatchPoints, acceptedPrecision, hp]
    | error e =>
      simp only [NewBatchPoints, acceptedPrecision, hp]
      constructor
      · rintro ⟨bp2, hbp2⟩; cases hbp2
      · intro hfalse; cases hfalse
  · intro hempty bp2 hok
    simp only [NewBatchPoints, hempty, eq_self_iff_true, if_true] at hok
    cases hp : parseDuration ("1" ++ "ms") with
    | ok v => rw [hp] at hok; cases hok; rfl
    | error e => rw [hp] at hok; cases hok
  · cases hp : parseDuration ("1" ++ u) with
    | ok v => simp [setPrecision, acceptedPrecision, hp]
    | error e => simp [setPrecision, acceptedPrecision, hp]

theorem claim_C7_witness :
    ((∃ bp2, NewBatchPoints (BatchPointsConfig.mk "" "iot") = .ok bp2)
      ↔ acceptedPrecision "ms" = true)
    ∧ (∀ bp2, NewBatchPoints (BatchPointsConfig.mk "" "iot") = .ok bp2 → bp2.precision = "ms") := by
  have h := claim_C7_amended (BatchPointsConfig.mk "" "iot") (Batchpoints.mk [] "iot" "ms" "" "") "s"
  exact ⟨by simpa using h.1, h.2.1 rfl⟩

/-- C1: decoding the response with column meta n BIGINT 8, s TIMESTAMP 8
and the single row 42, 2024-01-01T00:00:00.000000000Z (the integer cell a
wire number) with numeric coercion enabled yields exactly one row mapping
n to the 64-bit integer 42 and s to 1704067200 Unix seconds, whatever the
configured default number value is. -/
theorem claim_C1_decode_example (dv : HVal) :
    queryDataProcess dv true
      (Response.mk 0 ""
        [[JVal.str "n", JVal.str "BIGINT", JVal.num "8"],
         [JVal.str "s", JVal.str "TIMESTAMP", JVal.num "8"]]
        [[JVal.num "42", JVal.str "2024-01-01T00:00:00.000000000Z"]] 1)
      = .ok [[("n", HVal.int64 42), ("s", HVal.int64 1704067200)]] := rfl

/-- C2: Response.Error returns the ErrNotExistsTable sentinel exactly when
the code is 9826 or 9750, and the QueryData processing of a response whose
Error is that sentinel is an empty result with no error. -/
theorem claim_C2_not_exists_sentinel (r : Response) :
    (r.Error = some RespError.notExistsTable ↔ (r.code = 9826 ∨ r.code = 9750))
    ∧ (r.Error = some RespError.notExistsTable →
        ∀ dv convert, queryDataProcess dv convert r = .ok []) := by
  constructor
  · constructor
    · intro h
      unfold Response.Error at h
      split_ifs at h with h1 h2
      · exact h2
      all_goals simp_all
    · intro hcode
      unfold Response.Error
      have h1 : r.code ≠ 0 ∨ r.desc.length > 0 := by
        left; rcases hcode with h | h <;> omega
      rw [if_pos h1, if_pos hcode]
  · intro h dv convert
    unfold queryDataProcess
    rw [h]

theorem claim_C2_witness :
    (Response.mk 9826 "Table does not exist" [] [] 0).Error = some RespError.notExistsTable
    ∧ queryDataProcess (HVal.raw JVal.jnull) true
        (Response.mk 9826 "Table does not exist" [] [] 0) = .ok [] := by
  have h := claim_C2_not_exists_sentinel (Response.mk 9826 "Table does not exist" [] [] 0)
  have hs : (Response.mk 9826 "Table does not exist" [] [] 0).Error
      = some RespError.notExistsTable := h.1.mpr (Or.inl rfl)
  exact ⟨hs, h.2 hs (HVal.raw JVal.jnull) true⟩

/-- A metadata entry that is not a three-element list makes the column
loop return the meta-length error at once. -/
theorem buildRowAux_bad_head (dv : HVal) (convert : Bool) (r : List JVal)
    (bad : List JVal) (rest : List (List JVal)) (i : Nat) (row : List (String × HVal))
    (hbad : bad.length ≠ 3) :
    buildRowAux dv convert r (bad :: rest) i row
      = .error (.rerr "column meta data length no equal 3") := by
  rcases bad with _ | ⟨a, _ | ⟨b, _ | ⟨x, _ | ⟨y, t⟩⟩⟩⟩
  · rfl
  · rfl
  · rfl
  · exact absurd rfl hbad
  · rfl

/-- With a malformed metadata entry anywhere in the list, the column loop
never completes a row: it ends in the meta-length error or in an earlier
runtime panic. -/
theorem buildRowAux_fails (dv : HVal) (convert : Bool) (r : List JVal) :
    ∀ (meta : List (List JVal)) (i : Nat) (row : List (String × HVal)),
      (∃ c ∈ meta, c.length ≠ 3) →
      ∃ f, buildRowAux dv convert r meta i row = .error f := by
  intro meta
  induction meta with
  | nil =>
    intro i row h
    rcases h with ⟨c, hc, _⟩
    cases hc
  | cons c ms ih =>
    intro i row h
    rcases c with _ | ⟨a, _ | ⟨b, _ | ⟨x, _ | ⟨y, t⟩⟩⟩⟩
    · exact ⟨_, rfl⟩
    · exact ⟨_, rfl⟩
    · exact ⟨_, rfl⟩
    · -- c = [a, b, x]: well formed, so the malformed entry is in ms
      have hms : ∃ c2 ∈ ms, c2.length ≠ 3 := by
        rcases h with ⟨c2, hc2, hlen⟩
        rcases List.mem_cons.mp hc2 with heq | hmem
        · subst heq; simp at hlen
        · exact ⟨c2, hmem, hlen⟩
      cases a with
      | str cn =>
        by_cases hcn : cn = "_"
        · simpa [buildRowAux, hcn] using ih (i + 1) row hms
        · by_cases hcv : convert
          · cases b with
            | str ct =>
              cases hri : r[i]? with
              | none =>
                exact ⟨.rpanic "index out of range", by simp [buildRowAux, hcn, hcv, hri]⟩
              | some cell =>
                cases hcc : convCell dv ct cell with
                | ok v =>
                  simpa [buildRowAux, hcn, hcv, hri, hcc]
                    using ih (i + 1) (rowUpsert row cn v) hms
                | error f => exact ⟨f, by simp [buildRowAux, hcn, hcv, hri, hcc]⟩
            | num s =>
              exact ⟨.rpanic "interface conversion: column type is not a string",
                by simp [buildRowAux, hcn, hcv]⟩
            | jbool bb =>
              exact ⟨.rpanic "interface conversion: column type is not a string",
                by simp [buildRowAux, hcn, hcv]⟩
            | jnull =>
              exact ⟨.rpanic "interface conversion: column type is not a string",
                by simp [buildRowAux, hcn, hcv]⟩
            | jarr l =>
              exact ⟨.rpanic "interface conversion: column type is not a string",
                by simp [buildRowAux, hcn, hcv]⟩
            | jobj l =>
              exact ⟨.rpanic "interface conversion: column type is not a string",
                by simp [buildRowAux, hcn, hcv]⟩
          · cases hri : r[i]? with
            | none =>
              exact ⟨.rpanic "index out of range", by simp [buildRowAux, hcn, hcv, hri]⟩
            | some cell =>
              simpa [buildRowAux, hcn, hcv, hri]
                using ih (i + 1) (rowUpsert row cn (.raw cell)) hms
      | num s => exact ⟨_, rfl⟩
      | jbool bb => exact ⟨_, rfl⟩
      | jnull => exact ⟨_, rfl⟩
      | jarr l => exact ⟨_, rfl⟩
      | jobj l => exact ⟨_, rfl⟩
    · exact ⟨_, rfl⟩

/-- C8 counterexample: a response whose column metadata holds a malformed
(empty) entry but whose data is empty decodes without any error, because
the source validates the metadata only inside the per-row loop. -/
theorem claim_C8_counterexample :
    (([] : List JVal).length ≠ 3)
    ∧ queryDataProcess (HVal.raw JVal.jnull) true (Response.mk 0 "" [[]] [] 0) = .ok [] :=
  ⟨by decide, rfl⟩

/-- C8 amended: provided the response carries at least one data row, a
column-metadata entry that is not exactly a three-element triple makes the
whole decode fail -- no row list, partial or otherwise, is ever returned
(the failure is the meta-length error when the malformed entry is first;
an earlier entry may instead hit an unchecked-assertion panic); with zero
data rows the metadata is never examined. -/
theorem claim_C8_amended (dv : HVal) (convert : Bool) (resp : Response)
    (hne : resp.Error = none) (hdata : resp.data ≠ [])
    (hbad : ∃ c ∈ resp.columnMeta, c.length ≠ 3) :
    (∀ rows, queryDataProcess dv convert resp ≠ .ok rows)
    ∧ (∀ bad rest, resp.columnMeta = bad :: rest → bad.length ≠ 3 →
        queryDataProcess dv convert resp = .error "column meta data length no equal 3") := by
  have hq : queryDataProcess dv convert resp
      = processRowsAux dv convert resp.columnMeta resp.data [] := by
    unfold queryDataProcess
    rw [hne]
  constructor
  · intro rows hok
    rw [hq] at hok
    cases hd : resp.data with
    | nil => exact hdata hd
    | cons r rs =>
      rw [hd] at hok
      rcases buildRowAux_fails dv convert r resp.columnMeta 0 [] hbad with ⟨f, hf⟩
      unfold processRowsAux at hok
      rw [hf] at hok
      cases f with
      | rerr m => exact QDResult.noConfusion hok
      | rpanic m => exact QDResult.noConfusion hok
  · intro bad rest hmeta hblen
    rw [hq]
    cases hd : resp.data with
    | nil => exact absurd hd hdata
    | cons r rs =>
      unfold processRowsAux
      rw [hmeta, buildRowAux_bad_head dv convert r bad rest 0 [] hblen]

theorem claim_C8_witness :
    (∀ rows, queryDataProcess (HVal.raw JVal.jnull) true
        (Response.mk 0 "" [[]] [[JVal.num "1"]] 1) ≠ .ok rows)
    ∧ queryDataProcess (HVal.raw JVal.jnull) true
        (Response.mk 0 "" [[]] [[JVal.num "1"]] 1)
      = .error "column meta data length no equal 3" := by
  have h := claim_C8_amended (HVal.raw JVal.jnull) true
    (Response.mk 0 "" [[]] [[JVal.num "1"]] 1) rfl
    (by simp) ⟨[], by simp⟩
  exact ⟨h.1, h.2 [] [] rfl (by simp)⟩

/-- C10: QueryData with numeric coercion enabled is partial: a length-3
metadata entry whose name is not a string, one whose type is not a string,
and a non-string cell in a TIMESTAMP column each crash the decode through
an unchecked type assertion instead of returning an error. -/
theorem claim_C10_partiality :
    queryDataProcess (HVal.raw JVal.jnull) true
      (Response.mk 0 "" [[JVal.num "1", JVal.str "INT", JVal.num "8"]] [[JVal.num "5"]] 1)
      = .panicked "interface conversion: column name is not a string"
    ∧ queryDataProcess (HVal.raw JVal.jnull) true
      (Response.mk 0 "" [[JVal.str "a", JVal.num "2", JVal.num "8"]] [[JVal.num "5"]] 1)
      = .panicked "interface conversion: column type is not a string"
    ∧ queryDataProcess (HVal.raw JVal.jnull) true
      (Response.mk 0 "" [[JVal.str "t", JVal.str "TIMESTAMP", JVal.num "8"]] [[JVal.num "5"]] 1)
      = .panicked "interface conversion: timestamp cell is not a string" :=
  ⟨rfl, rfl, rfl⟩

theorem string_append_empty (s : String) : s ++ "" = s := by
  cases s with
  | mk data =>
    show String.mk (data ++ []) = String.mk data
    rw [List.append_nil]

theorem countNewlines_append (s t : String) :
    countNewlines (s ++ t) = countNewlines s + countNewlines t := by
  cases s with
  | mk ds =>
    cases t with
    | mk dt =>
      show (ds ++ dt).count '\n' = ds.count '\n' + dt.count '\n'
      exact List.count_append '\n' ds dt

/-- C4: a batch holding one nil point and one valid point serializes to
exactly the valid point's line followed by the newline terminator -- one
line, no empty line for the nil point -- and in general every non-nil
point is emitted in insertion order, each line newline-terminated. -/
theorem claim_C4_write_skips_nil (p p1 p2 : DataPoint) (prec : String) :
    writeBody [none, some p] prec = p.lineProtocol prec ++ "\n"
    ∧ (countNewlines (p.lineProtocol prec) = 0 →
        countNewlines (writeBody [none, some p] prec) = 1)
    ∧ writeBody [some p1, none, some p2] prec
        = p1.lineProtocol prec ++ "\n" ++ (p2.lineProtocol prec ++ "\n") := by
  have hsingle : writeBody [none, some p] prec = p.lineProtocol prec ++ "\n" := by
    show (p.lineProtocol prec ++ "\n") ++ "" = p.lineProtocol prec ++ "\n"
    exact string_append_empty _
  refine ⟨hsingle, ?_, ?_⟩
  · intro hnone
    rw [hsingle, countNewlines_append, hnone]
    rfl
  · show (p1.lineProtocol prec ++ "\n") ++ ((p2.lineProtocol prec ++ "\n") ++ "")
        = p1.lineProtocol prec ++ "\n" ++ (p2.lineProtocol prec ++ "\n")
    rw [string_append_empty]

theorem claim_C4_witness :
    writeBody [none, some (DataPoint.mk (fun _ => "m f=1i 5"))] "ms" = "m f=1i 5\n"
    ∧ countNewlines (writeBody [none, some (DataPoint.mk (fun _ => "m f=1i 5"))] "ms") = 1 := by
  have h := claim_C4_write_skips_nil (DataPoint.mk (fun _ => "m f=1i 5"))
    (DataPoint.mk (fun _ => "m f=1i 5")) (DataPoint.mk (fun _ => "m f=1i 5")) "ms"
  exact ⟨h.1, h.2.1 (by decide)⟩

/-- C5: an end-of-input JSON decode failure is treated as a successful
decode of the empty response exactly when the HTTP status is not 200 (the
non-200 status error is then synthesized as for any non-200 exchange
whose payload carries no application error); with status 200 the same
failure is returned as a hard decode error. -/
theorem claim_C5_eof_tolerance (status : Nat) :
    queryDecodePhase status (.error "EOF")
      = if status = 200 then (none, some (.decodeErr 200 "EOF"))
        else (some emptyResponse, some (.statusErr status)) := by
  by_cases h : status = 200
  · subst h
    simp [queryDecodePhase]
  · simp [queryDecodePhase, h, emptyResponse, Response.Error]

/-- C9: when the context is cancelled, the next iteration calls
Unsubscribe; on success the destination channel is closed and nil is
returned, on failure the channel stays open and the Unsubscribe error is
returned. -/
theorem claim_C9_cancel_unsubscribe (env : IterEnv) (rest : List IterEnv)
    (hdone : env.ctxDone = true) :
    (env.unsubErr = none → subscribeLoop (env :: rest) = .returned none true true [])
    ∧ (∀ e, env.unsubErr = some e →
        subscribeLoop (env :: rest) = .returned (some e) false true []) := by
  constructor
  · intro hu
    simp [subscribeLoop, hdone, hu]
  · intro e hu
    simp [subscribeLoop, hdone, hu]

theorem claim_C9_witness :
    subscribeLoop [IterEnv.mk true none PollEvent.pnone true] = .returned none true true []
    ∧ subscribeLoop [IterEnv.mk true (some "tmq error") PollEvent.pnone true]
        = .returned (some "tmq error") false true [] := by
  refine ⟨?_, ?_⟩
  · exact (claim_C9_cancel_unsubscribe (IterEnv.mk true none PollEvent.pnone true) [] rfl).1 rfl
  · exact (claim_C9_cancel_unsubscribe
      (IterEnv.mk true (some "tmq error") PollEvent.pnone true) [] rfl).2 "tmq error" rfl
